import Mathlib

/-!
Verification development for the AIQA span exporter
(`src/client-python/aiqa/aiqa_exporter.py`, class `AIQASpanExporter`).

The exporter buffers serialized spans, deduplicates them by
`(traceId, spanId)`, splits them into byte-bounded batches and flushes
them to a server.  We embed the buffer state and the operations of the
class shallowly:

* a serialized span (the dict produced by `_serialize_span`) becomes
  `SpanRecord`, keeping the two fields the buffering logic inspects
  (`traceId`, `spanId`) and an opaque `payload` standing for the rest
  of the dict (name, times, attributes, ...);
* the mutable fields `self.buffer` (a Python list) and
  `self.buffer_span_keys` (a Python set of pairs) become
  `ExporterState` with a `List SpanRecord` and a
  `Finset (String × String)`;
* each method that mutates these fields becomes a state-passing
  function translated line by line from the Python body;
* the JSON serialized size of a span (`len(json.dumps(span).encode)`)
  is abstracted as a parameter `sz : SpanRecord → Nat`, and the network
  outcome of `_send_spans` as a `SendOutcome` parameter of `flush`.
-/

/-- A serialized span, the dict returned by `_serialize_span`.  Only
`traceId` and `spanId` are inspected by the buffering logic; `payload`
stands for all remaining fields of the dict. -/
structure SpanRecord where
  traceId : String
  spanId : String
  payload : String
deriving DecidableEq, Repr

/-- The key used for deduplication: the Python tuple
`(serialized["traceId"], serialized["spanId"])`. -/
def spanKey (s : SpanRecord) : String × String :=
  (s.traceId, s.spanId)

/-- The mutable buffering state of an `AIQASpanExporter`:
`self.buffer` and `self.buffer_span_keys`. -/
structure ExporterState where
  buffer : List SpanRecord
  bufferSpanKeys : Finset (String × String)
deriving DecidableEq

/-- The state after `__init__`: `self.buffer = []`,
`self.buffer_span_keys = set()`. -/
def emptyState : ExporterState :=
  { buffer := [], bufferSpanKeys := ∅ }

/-- `SpanExportResult` of the OpenTelemetry SDK; `export` always
returns `SUCCESS`. -/
inductive SpanExportResult where
  | SUCCESS
  | FAILURE
deriving DecidableEq, Repr

/-- One iteration of the loop in `export`: serialize the span, compute
its key; if the key is already tracked skip it (a duplicate), otherwise
append the span to the buffer and add the key to the tracking set. -/
def exportStep (st : ExporterState) (span : SpanRecord) : ExporterState :=
  if spanKey span ∈ st.bufferSpanKeys then st
  else
    { buffer := st.buffer ++ [span],
      bufferSpanKeys := insert (spanKey span) st.bufferSpanKeys }

/-- `AIQASpanExporter.export(spans)`: on an empty input return
`SUCCESS` immediately; otherwise run the deduplicating loop, extend the
buffer with the non-duplicate spans in input order, and return
`SUCCESS`.  (In the source the accepted spans are collected in
`serialized_spans` and appended with one `extend`; folding
`exportStep` appends each accepted span in the same order, which is the
same list operation.) -/
def exportSpans (st : ExporterState) (spans : List SpanRecord) :
    ExporterState × SpanExportResult :=
  if spans.isEmpty then (st, SpanExportResult.SUCCESS)
  else (spans.foldl exportStep st, SpanExportResult.SUCCESS)

/-- `AIQASpanExporter._extract_and_remove_spans_from_buffer()`: return
a copy of the buffer and clear it; the key set is not touched. -/
def extractAndRemoveSpansFromBuffer (st : ExporterState) :
    List SpanRecord × ExporterState :=
  (st.buffer, { st with buffer := [] })

/-- `AIQASpanExporter._remove_span_keys_from_tracking(spans)`: discard
the key of each given span from the tracking set. -/
def removeSpanKeysFromTracking (st : ExporterState)
    (spans : List SpanRecord) : ExporterState :=
  { st with
    bufferSpanKeys :=
      spans.foldl (fun ks span => ks.erase (spanKey span)) st.bufferSpanKeys }

/-- `AIQASpanExporter._prepend_spans_to_buffer(spans)`: splice the
spans in front of the buffer (`self.buffer[:0] = spans`) and rebuild
the key set from the current buffer contents (the set comprehension
over `self.buffer`). -/
def prependSpansToBuffer (st : ExporterState)
    (spans : List SpanRecord) : ExporterState :=
  { buffer := spans ++ st.buffer,
    bufferSpanKeys := ((spans ++ st.buffer).map spanKey).toFinset }

/-- `AIQASpanExporter._clear_buffer()`: empty the buffer and the key
set. -/
def clearBuffer (_st : ExporterState) : ExporterState :=
  { buffer := [], bufferSpanKeys := ∅ }

/-- `AIQASpanExporter._time_to_tuple(nanoseconds)`: floor-divide and
take the remainder by `1_000_000_000`, returning
`(seconds, nanos)`. -/
def timeToTuple (nanoseconds : Nat) : Nat × Nat :=
  (nanoseconds / 1000000000, nanoseconds % 1000000000)

/-- `str.rstrip("/")` on a Python string: remove every trailing `/`
character. -/
def rstripSlashes (s : String) : String :=
  ⟨(s.data.reverse.dropWhile (fun c => c = '/')).reverse⟩

/-- Python truthiness-based `a or b` for `a : Optional[str]`: `b` when
`a` is `None` or the empty string, else `a`. -/
def pyOrStr (a : Option String) (b : String) : String :=
  match a with
  | none => b
  | some s => if s = "" then b else s

/-- The `server_url` property:
`self._server_url or os.getenv("AIQA_SERVER_URL", "").rstrip("/")`.
`ctorUrl` is the constructor argument `server_url`, `envUrl` the value
of the environment variable `AIQA_SERVER_URL` (`none` when unset).
Note the `.rstrip("/")` binds to the `os.getenv(...)` call only. -/
def serverUrlEffective (ctorUrl : Option String) (envUrl : Option String) :
    String :=
  pyOrStr ctorUrl (rstripSlashes (envUrl.getD ""))

/-- The loop of `AIQASpanExporter._split_into_batches`, with the local
variables `batches`, `current_batch` and `current_batch_size` made
explicit.  `sz span` is `len(json.dumps(span).encode('utf-8'))`, the
serialized size of the span, abstracted as a parameter. -/
def splitGo (sz : SpanRecord → Nat) (maxBatchSizeBytes : Nat) :
    List SpanRecord → List (List SpanRecord) → List SpanRecord → Nat →
    List (List SpanRecord)
  | [], batches, currentBatch, _ =>
      if currentBatch = [] then batches else batches ++ [currentBatch]
  | span :: rest, batches, currentBatch, currentBatchSize =>
      let spanSize := sz span
      if spanSize > maxBatchSizeBytes then
        -- oversized span: close the running batch if non-empty, then
        -- emit the span alone in its own batch and continue
        let batches1 :=
          if currentBatch = [] then batches else batches ++ [currentBatch]
        let size1 := if currentBatch = [] then currentBatchSize else 0
        splitGo sz maxBatchSizeBytes rest (batches1 ++ [[span]]) [] size1
      else if currentBatch ≠ [] ∧
          currentBatchSize + spanSize > maxBatchSizeBytes then
        -- adding the span would exceed the limit: start a new batch
        splitGo sz maxBatchSizeBytes rest (batches ++ [currentBatch])
          [span] spanSize
      else
        splitGo sz maxBatchSizeBytes rest batches
          (currentBatch ++ [span]) (currentBatchSize + spanSize)

/-- `AIQASpanExporter._split_into_batches(spans)`: empty input returns
`[]`; otherwise the greedy single pass of `splitGo` starting from empty
accumulators. -/
def splitIntoBatches (sz : SpanRecord → Nat) (maxBatchSizeBytes : Nat)
    (spans : List SpanRecord) : List (List SpanRecord) :=
  if spans = [] then [] else splitGo sz maxBatchSizeBytes spans [] [] 0

/-- The outcome of `await self._send_spans(spans_to_flush)` in `flush`,
abstracting the network:
* `success` — `_send_spans` returned normally;
* `runtimeShutdownError` — it raised a `RuntimeError` recognised by
  `_is_interpreter_shutdown_error`;
* `runtimeOtherError` — it raised any other `RuntimeError`;
* `otherException` — it raised a non-`RuntimeError` exception (this is
  how transport errors and non-success HTTP statuses surface: they are
  aggregated into a plain `Exception` raised at the end of
  `_send_spans`). -/
inductive SendOutcome where
  | success
  | runtimeShutdownError
  | runtimeOtherError
  | otherException
deriving DecidableEq, Repr

/-- How one `flush()` cycle ends, recording whether an exception
propagates out of `flush` to its caller:
* `noSpans` — buffer was empty, immediate return;
* `skippedNoUrl` — no server url configured: a warning is logged, the
  drained spans are dropped and their keys released, normal return;
* `sent` — `_send_spans` succeeded, keys released, normal return;
* `failedRaised` — the send failed and `flush` re-raises the
  exception to its caller;
* `failedSwallowed` — the send failed with a non-`RuntimeError`
  exception while `shutdown_requested` is false: `flush` logs the
  error and returns normally (no exception reaches the caller). -/
inductive FlushResult where
  | noSpans
  | skippedNoUrl
  | sent
  | failedRaised
  | failedSwallowed
deriving DecidableEq, Repr

/-- `AIQASpanExporter.flush()`, translated branch by branch.
`serverUrl` is the value of the `server_url` property (`""` when not
configured — Python tests `if not self.server_url`),
`shutdownRequested` the `self.shutdown_requested` flag, and `send` the
outcome of `await self._send_spans(...)`.  Returns the new buffer
state and how the cycle ended:
1. extract and remove all spans from the buffer;
2. if none, return;
3. if no server url, release the drained spans' keys and return
   (warning);
4. otherwise on success release the keys; on a `RuntimeError` prepend
   the spans back and re-raise; on any other exception prepend the
   spans back and re-raise only when `shutdown_requested` is true. -/
def flush (serverUrl : String) (shutdownRequested : Bool)
    (send : SendOutcome) (st : ExporterState) :
    ExporterState × FlushResult :=
  let extracted := extractAndRemoveSpansFromBuffer st
  let spansToFlush := extracted.1
  let st1 := extracted.2
  if spansToFlush.isEmpty then (st1, FlushResult.noSpans)
  else if serverUrl = "" then
    (removeSpanKeysFromTracking st1 spansToFlush, FlushResult.skippedNoUrl)
  else
    match send with
    | SendOutcome.success =>
        (removeSpanKeysFromTracking st1 spansToFlush, FlushResult.sent)
    | SendOutcome.runtimeShutdownError =>
        (prependSpansToBuffer st1 spansToFlush, FlushResult.failedRaised)
    | SendOutcome.runtimeOtherError =>
        (prependSpansToBuffer st1 spansToFlush, FlushResult.failedRaised)
    | SendOutcome.otherException =>
        (prependSpansToBuffer st1 spansToFlush,
         if shutdownRequested then FlushResult.failedRaised
         else FlushResult.failedSwallowed)

/-- The keys of the spans currently in the ordered buffer. -/
def bufKeys (st : ExporterState) : Finset (String × String) :=
  (st.buffer.map spanKey).toFinset

/-- The keys of the spans drained by a flush cycle still in flight
(`spans_to_flush` between extraction and key release / restore);
`none` when no flush cycle is between those two points. -/
def flightKeys : Option (List SpanRecord) → Finset (String × String)
  | none => ∅
  | some spans => (spans.map spanKey).toFinset

/-- The whole-system state: the exporter's buffer state plus the
drained spans of the flush cycle currently in flight, if any.  The
flush lock serializes flush cycles, so at most one drain can be in
flight; `export` takes only the buffer lock and may run at any
point. -/
structure SysState where
  exp : ExporterState
  inFlight : Option (List SpanRecord)

/-- States reachable by the buffer operations as the exporter calls
them: starting from the empty state of `__init__`, any `export` may
run at any time (it only takes the buffer lock); a flush cycle, of
which at most one is in flight thanks to the flush lock, drains the
buffer (`_extract_and_remove_spans_from_buffer`) and later either
releases the drained spans' keys
(`_remove_span_keys_from_tracking`, after a successful send or on the
no-destination discard path) or restores the drained spans
(`_prepend_spans_to_buffer`, after a failed send); `_clear_buffer`
(never called concurrently with a flush cycle — it has no caller
inside one) clears both structures. -/
inductive SysReachable : SysState → Prop where
  | init : SysReachable ⟨emptyState, none⟩
  | exportOp (spans : List SpanRecord) {e : ExporterState}
      {f : Option (List SpanRecord)} :
      SysReachable ⟨e, f⟩ → SysReachable ⟨(exportSpans e spans).1, f⟩
  | drainOp {e : ExporterState} :
      SysReachable ⟨e, none⟩ →
      SysReachable ⟨(extractAndRemoveSpansFromBuffer e).2,
        some (extractAndRemoveSpansFromBuffer e).1⟩
  | releaseOp {e : ExporterState} {spans : List SpanRecord} :
      SysReachable ⟨e, some spans⟩ →
      SysReachable ⟨removeSpanKeysFromTracking e spans, none⟩
  | restoreOp {e : ExporterState} {spans : List SpanRecord} :
      SysReachable ⟨e, some spans⟩ →
      SysReachable ⟨prependSpansToBuffer e spans, none⟩
  | clearOp {e : ExporterState} :
      SysReachable ⟨e, none⟩ → SysReachable ⟨clearBuffer e, none⟩

/-- Concrete spans used to instantiate theorems.  `spanA` and
`spanDupA` share a `(traceId, spanId)` key but differ in payload;
`spanB` has the same trace id and a different span id. -/
def spanA : SpanRecord := ⟨"trace1", "span1", "payloadA"⟩

/-- Second concrete span, same key as `spanA`, different payload. -/
def spanDupA : SpanRecord := ⟨"trace1", "span1", "payloadA2"⟩

/-- Third concrete span, same trace id as `spanA`, different span
id. -/
def spanB : SpanRecord := ⟨"trace1", "span2", "payloadB"⟩

/-- Fourth concrete span, distinct key from the others. -/
def spanC : SpanRecord := ⟨"trace2", "span3", "payloadC"⟩

/-- Membership after the erase fold of
`removeSpanKeysFromTracking`: a key survives iff it was present and is
the key of none of the removed spans. -/
lemma mem_foldl_erase (k : String × String) (spans : List SpanRecord)
    (ks : Finset (String × String)) :
    k ∈ spans.foldl (fun ks span => ks.erase (spanKey span)) ks ↔
      k ∈ ks ∧ ∀ sp ∈ spans, k ≠ spanKey sp := by
  induction spans generalizing ks with
  | nil => simp
  | cons sp rest ih =>
      simp only [List.foldl_cons, ih, Finset.mem_erase, List.mem_cons]
      constructor
      · rintro ⟨⟨hne, hmem⟩, hall⟩
        exact ⟨hmem, by rintro x (rfl | hx); exact hne; exact hall x hx⟩
      · rintro ⟨hmem, hall⟩
        exact ⟨⟨hall sp (Or.inl rfl), hmem⟩, fun x hx => hall x (Or.inr hx)⟩

/-- The inductive invariant tying the tracking set to the buffer and
the in-flight drained spans: the tracking set is exactly the buffer's
keys together with the in-flight keys, and those two parts are
disjoint. -/
def sysInv (s : SysState) : Prop :=
  s.exp.bufferSpanKeys = bufKeys s.exp ∪ flightKeys s.inFlight ∧
    Disjoint (bufKeys s.exp) (flightKeys s.inFlight)

/-- One `exportStep` preserves the inductive invariant for any fixed
in-flight key set `F`. -/
lemma exportStep_inv {e : ExporterState} {F : Finset (String × String)}
    (h1 : e.bufferSpanKeys = bufKeys e ∪ F)
    (h2 : Disjoint (bufKeys e) F) (sp : SpanRecord) :
    (exportStep e sp).bufferSpanKeys = bufKeys (exportStep e sp) ∪ F ∧
      Disjoint (bufKeys (exportStep e sp)) F := by
  unfold exportStep
  by_cases hmem : spanKey sp ∈ e.bufferSpanKeys
  · simp only [hmem, if_true]
    exact ⟨h1, h2⟩
  · simp only [hmem, if_false]
    have hbk : bufKeys
        ⟨e.buffer ++ [sp], insert (spanKey sp) e.bufferSpanKeys⟩ =
        insert (spanKey sp) (bufKeys e) := by
      simp only [bufKeys, List.map_append, List.toFinset_append,
        List.map_cons, List.map_nil, List.toFinset_cons, List.toFinset_nil,
        insert_emptyc_eq]
      rw [Finset.union_comm, ← Finset.insert_eq]
    refine ⟨?_, ?_⟩
    · rw [hbk, h1, Finset.insert_union]
    · rw [hbk, Finset.disjoint_insert_left]
      refine ⟨fun hF => hmem ?_, h2⟩
      rw [h1]
      exact Finset.mem_union_right _ hF

/-- The fold of `exportStep` over any span list preserves the
inductive invariant. -/
lemma foldl_exportStep_inv {F : Finset (String × String)}
    (spans : List SpanRecord) :
    ∀ e : ExporterState, e.bufferSpanKeys = bufKeys e ∪ F →
    Disjoint (bufKeys e) F →
    (spans.foldl exportStep e).bufferSpanKeys =
        bufKeys (spans.foldl exportStep e) ∪ F ∧
      Disjoint (bufKeys (spans.foldl exportStep e)) F := by
  induction spans with
  | nil => intro e h1 h2; exact ⟨h1, h2⟩
  | cons sp rest ih =>
      intro e h1 h2
      have hstep := exportStep_inv h1 h2 sp
      exact ih (exportStep e sp) hstep.1 hstep.2

/-- Every reachable system state satisfies the inductive invariant. -/
lemma sysReachable_inv {s : SysState} (h : SysReachable s) : sysInv s := by
  induction h with
  | init =>
      constructor
      · simp [emptyState, bufKeys, flightKeys]
      · simp [emptyState, bufKeys]
  | exportOp spans h ih =>
      unfold sysInv at ih ⊢
      simp only [exportSpans]
      by_cases hsp : spans.isEmpty
      · simp only [hsp, if_true]
        exact ih
      · simp only [hsp, if_false]
        exact foldl_exportStep_inv spans _ ih.1 ih.2
  | drainOp h ih =>
      unfold sysInv at ih ⊢
      rename_i e
      constructor
      · simp only [extractAndRemoveSpansFromBuffer, flightKeys]
        have : bufKeys { e with buffer := [] } = ∅ := by simp [bufKeys]
        rw [this, Finset.empty_union, ih.1]
        simp [flightKeys, bufKeys]
      · simp [extractAndRemoveSpansFromBuffer, bufKeys]
  | releaseOp h ih =>
      unfold sysInv at ih ⊢
      rename_i e spans
      have hkeys : (removeSpanKeysFromTracking e spans).bufferSpanKeys =
          bufKeys e := by
        apply Finset.ext
        intro k
        rw [removeSpanKeysFromTracking, mem_foldl_erase]
        constructor
        · rintro ⟨hmem, hall⟩
          rw [ih.1] at hmem
          rcases Finset.mem_union.mp hmem with hb | hf
          · exact hb
          · exfalso
            simp only [flightKeys, List.mem_toFinset, List.mem_map] at hf
            obtain ⟨sp, hsp, hk⟩ := hf
            exact hall sp hsp hk.symm
        · intro hb
          refine ⟨by rw [ih.1]; exact Finset.mem_union_left _ hb, ?_⟩
          intro sp hsp hk
          have hf : k ∈ flightKeys (some spans) := by
            simp only [flightKeys, List.mem_toFinset, List.mem_map]
            exact ⟨sp, hsp, hk.symm⟩
          exact Finset.disjoint_left.mp ih.2 hb hf
      have hbuf : bufKeys (removeSpanKeysFromTracking e spans) = bufKeys e := by
        simp [removeSpanKeysFromTracking, bufKeys]
      constructor
      · rw [hkeys, hbuf]
        simp [flightKeys]
      · simp [flightKeys]
  | restoreOp h ih =>
      unfold sysInv at ih ⊢
      constructor
      · simp [prependSpansToBuffer, bufKeys, flightKeys]
      · simp [flightKeys]
  | clearOp h ih =>
      constructor
      · simp [clearBuffer, bufKeys, flightKeys]
      · simp [clearBuffer, bufKeys]

/-- A batch respecting the byte ceiling: either the sum of its spans'
serialized sizes stays within `maxBatchSizeBytes`, or it is a single
span whose own size exceeds the limit (the deliberate
oversized-span-alone policy). -/
def goodBatch (sz : SpanRecord → Nat) (maxBatchSizeBytes : Nat)
    (b : List SpanRecord) : Prop :=
  (b.map sz).sum ≤ maxBatchSizeBytes ∨
    ∃ sp, b = [sp] ∧ maxBatchSizeBytes < sz sp

/-- Concatenating the batches produced by the `_split_into_batches`
loop reproduces the already-closed batches, the running batch and the
remaining input, in order. -/
lemma splitGo_flatten (sz : SpanRecord → Nat) (maxB : Nat)
    (rest : List SpanRecord) :
    ∀ (batches : List (List SpanRecord)) (cur : List SpanRecord)
      (size : Nat),
    (splitGo sz maxB rest batches cur size).flatten =
      batches.flatten ++ cur ++ rest := by
  induction rest with
  | nil =>
      intro batches cur size
      by_cases h : cur = [] <;> simp [splitGo, h]
  | cons span rest ih =>
      intro batches cur size
      simp only [splitGo]
      by_cases h1 : sz span > maxB
      · simp only [h1, if_true]
        by_cases hc : cur = [] <;> simp [hc, ih]
      · simp only [h1, if_false]
        by_cases h2 : cur ≠ [] ∧ size + sz span > maxB
        · simp [h2, ih]
        · simp [h2, ih]

/-- If all closed batches are good, and the running batch's size
bookkeeping is exact and within the ceiling, then every batch produced
by the `_split_into_batches` loop is good. -/
lemma splitGo_good (sz : SpanRecord → Nat) (maxB : Nat)
    (rest : List SpanRecord) :
    ∀ (batches : List (List SpanRecord)) (cur : List SpanRecord)
      (size : Nat),
    (∀ b ∈ batches, goodBatch sz maxB b) →
    (cur.map sz).sum = size → size ≤ maxB →
    ∀ b ∈ splitGo sz maxB rest batches cur size, goodBatch sz maxB b := by
  induction rest with
  | nil =>
      intro batches cur size hb hsum hle b hmem
      by_cases h : cur = []
      · simp only [splitGo, h, if_true] at hmem
        exact hb b hmem
      · simp only [splitGo, h, if_false, List.mem_append,
          List.mem_singleton] at hmem
        rcases hmem with hmem | rfl
        · exact hb b hmem
        · exact Or.inl (by rw [hsum]; exact hle)
  | cons span rest ih =>
      intro batches cur size hb hsum hle b hmem
      simp only [splitGo] at hmem
      by_cases h1 : sz span > maxB
      · rw [if_pos h1] at hmem
        by_cases hc : cur = []
        · rw [if_pos hc, if_pos hc] at hmem
          subst hc
          have hsize0 : size = 0 := by simpa using hsum.symm
          subst hsize0
          refine ih _ [] 0 ?_ rfl (Nat.zero_le _) b hmem
          intro b2 hb2
          rcases List.mem_append.mp hb2 with hb2 | hb2
          · exact hb b2 hb2
          · rw [List.mem_singleton.mp hb2]
            exact Or.inr ⟨span, rfl, h1⟩
        · rw [if_neg hc, if_neg hc] at hmem
          refine ih _ [] 0 ?_ rfl (Nat.zero_le _) b hmem
          intro b2 hb2
          rcases List.mem_append.mp hb2 with hb2 | hb2
          · rcases List.mem_append.mp hb2 with hb3 | hb3
            · exact hb b2 hb3
            · rw [List.mem_singleton.mp hb3]
              exact Or.inl (by rw [hsum]; exact hle)
          · rw [List.mem_singleton.mp hb2]
            exact Or.inr ⟨span, rfl, h1⟩
      · rw [if_neg h1] at hmem
        by_cases h2 : cur ≠ [] ∧ size + sz span > maxB
        · rw [if_pos h2] at hmem
          refine ih _ [span] _ ?_ (by simp) (Nat.le_of_not_lt h1) b hmem
          intro b2 hb2
          rcases List.mem_append.mp hb2 with hb2 | hb2
          · exact hb b2 hb2
          · rw [List.mem_singleton.mp hb2]
            exact Or.inl (by rw [hsum]; exact hle)
        · rw [if_neg h2] at hmem
          have hle2 : size + sz span ≤ maxB := by
            rcases Decidable.not_and_iff_or_not.mp h2 with hc | hgt
            · have hc2 : cur = [] := Decidable.not_not.mp hc
              have hsize0 : size = 0 := by rw [← hsum, hc2]; rfl
              rw [hsize0, Nat.zero_add]
              exact Nat.le_of_not_lt h1
            · exact Nat.le_of_not_lt hgt
          refine ih _ (cur ++ [span]) _ hb ?_ hle2 b hmem
          simp [hsum]

/-- `exportStep` leaves the state unchanged on a span whose key is
already tracked. -/
lemma exportStep_mem {st : ExporterState} {sp : SpanRecord}
    (h : spanKey sp ∈ st.bufferSpanKeys) : exportStep st sp = st :=
  if_pos h

/-- `exportStep` appends a span with an untracked key and tracks its
key. -/
lemma exportStep_not_mem {st : ExporterState} {sp : SpanRecord}
    (h : spanKey sp ∉ st.bufferSpanKeys) :
    exportStep st sp =
      ⟨st.buffer ++ [sp], insert (spanKey sp) st.bufferSpanKeys⟩ :=
  if_neg h

/-- C1: a span whose `(traceId, spanId)` key is already tracked is
skipped by `export` without error (the call still returns `SUCCESS`
and the state is as if the span had not been passed); consequently
exporting two spans with identical keys into an empty exporter buffers
exactly one entry — the earliest — and a third span with a different
span id yields two buffered entries. -/
theorem export_dedup_c1 (s1 s2 s3 : SpanRecord)
    (h12 : spanKey s1 = spanKey s2) (h13 : spanKey s1 ≠ spanKey s3) :
    ((exportSpans emptyState [s1, s2]).1.buffer = [s1] ∧
      (exportSpans emptyState [s1, s2]).2 = SpanExportResult.SUCCESS) ∧
    ((exportSpans emptyState [s1, s2, s3]).1.buffer = [s1, s3] ∧
      (exportSpans emptyState [s1, s2, s3]).2 = SpanExportResult.SUCCESS) ∧
    (∀ (st : ExporterState) (sp : SpanRecord) (rest : List SpanRecord),
      spanKey sp ∈ st.bufferSpanKeys →
      exportSpans st (sp :: rest) = exportSpans st rest) := by
  have h1 : exportStep emptyState s1 =
      ⟨[s1], insert (spanKey s1) ∅⟩ := by
    rw [exportStep_not_mem (by simp [emptyState])]
    simp [emptyState]
  have h2 : exportStep ⟨[s1], insert (spanKey s1) ∅⟩ s2 =
      ⟨[s1], insert (spanKey s1) ∅⟩ :=
    exportStep_mem (by simp [← h12])
  have h3 : exportStep ⟨[s1], insert (spanKey s1) ∅⟩ s3 =
      ⟨[s1, s3], insert (spanKey s3) (insert (spanKey s1) ∅)⟩ := by
    rw [exportStep_not_mem ?_]
    · simp
    · simp only [Finset.mem_insert, Finset.not_mem_empty, or_false]
      exact fun h => h13 h.symm
  refine ⟨⟨?_, rfl⟩, ⟨?_, rfl⟩, ?_⟩
  · show ((if ([s1, s2] : List SpanRecord).isEmpty
        then (emptyState, SpanExportResult.SUCCESS)
        else ([s1, s2].foldl exportStep emptyState,
          SpanExportResult.SUCCESS))).1.buffer = [s1]
    simp only [List.isEmpty_cons, if_false, List.foldl_cons,
      List.foldl_nil, h1, h2]
    rfl
  · show ((if ([s1, s2, s3] : List SpanRecord).isEmpty
        then (emptyState, SpanExportResult.SUCCESS)
        else ([s1, s2, s3].foldl exportStep emptyState,
          SpanExportResult.SUCCESS))).1.buffer = [s1, s3]
    simp only [List.isEmpty_cons, if_false, List.foldl_cons,
      List.foldl_nil, h1, h2, h3]
    rfl
  · intro st sp rest hmem
    have hstep : exportStep st sp = st := exportStep_mem hmem
    cases rest with
    | nil => simp [exportSpans, hstep]
    | cons r rs => simp [exportSpans, hstep]

/-- C1 witness: two concrete spans sharing a key plus one with a
different span id, exported into an empty exporter. -/
theorem export_dedup_c1_witness :
    (exportSpans emptyState [spanA, spanDupA, spanB]).1.buffer =
        [spanA, spanB] ∧
      (exportSpans emptyState [spanA, spanDupA, spanB]).2 =
        SpanExportResult.SUCCESS :=
  (export_dedup_c1 spanA spanDupA spanB (by decide) (by decide)).2.1

/-- C4: `_prepend_spans_to_buffer` re-inserts the given spans at the
front of the buffer, keeping their relative order ahead of everything
already buffered, and afterwards the tracking set is exactly the key
set of the buffer's full contents; in particular restoring `[a, b]`
into a buffer holding `[c]` yields buffer `[a, b, c]` with exactly the
keys of `a`, `b`, `c`. -/
theorem restore_prepend_c4 (st : ExporterState) (spans : List SpanRecord)
    (a b c : SpanRecord) (ks : Finset (String × String)) :
    ((prependSpansToBuffer st spans).buffer = spans ++ st.buffer) ∧
    ((prependSpansToBuffer st spans).bufferSpanKeys =
      bufKeys (prependSpansToBuffer st spans)) ∧
    ((prependSpansToBuffer ⟨[c], ks⟩ [a, b]).buffer = [a, b, c]) ∧
    ((prependSpansToBuffer ⟨[c], ks⟩ [a, b]).bufferSpanKeys =
      ([a, b, c].map spanKey).toFinset) := by
  refine ⟨rfl, rfl, rfl, rfl⟩

/-- C5: `_extract_and_remove_spans_from_buffer` returns the whole
ordered buffer, leaves the buffer empty, and does not touch the key
tracking set. -/
theorem drain_keeps_keys_c5 (st : ExporterState) :
    (extractAndRemoveSpansFromBuffer st).1 = st.buffer ∧
    (extractAndRemoveSpansFromBuffer st).2.buffer = [] ∧
    (extractAndRemoveSpansFromBuffer st).2.bufferSpanKeys =
      st.bufferSpanKeys :=
  ⟨rfl, rfl, rfl⟩

/-- C6: in every system state reachable by the buffer operations as
the exporter invokes them, the tracking set is a superset of the keys
of the spans currently in the ordered buffer. -/
theorem key_superset_invariant_c6 (s : SysState) (h : SysReachable s) :
    bufKeys s.exp ⊆ s.exp.bufferSpanKeys ∧
    ∀ sp ∈ s.exp.buffer, spanKey sp ∈ s.exp.bufferSpanKeys := by
  have hsub : bufKeys s.exp ⊆ s.exp.bufferSpanKeys := by
    rw [(sysReachable_inv h).1]
    exact Finset.subset_union_left
  refine ⟨hsub, fun sp hsp => hsub ?_⟩
  simp only [bufKeys, List.mem_toFinset, List.mem_map]
  exact ⟨sp, hsp, rfl⟩

/-- C6 witness: the state after exporting two concrete spans into a
fresh exporter is reachable and satisfies the invariant. -/
theorem key_superset_invariant_c6_witness :
    SysReachable ⟨(exportSpans emptyState [spanA, spanB]).1, none⟩ ∧
    bufKeys (exportSpans emptyState [spanA, spanB]).1 ⊆
      (exportSpans emptyState [spanA, spanB]).1.bufferSpanKeys :=
  ⟨SysReachable.exportOp [spanA, spanB] SysReachable.init,
    (key_superset_invariant_c6 _
      (SysReachable.exportOp [spanA, spanB] SysReachable.init)).1⟩

/-- C10: `_time_to_tuple` decomposes a nonnegative nanosecond count
losslessly: `seconds * 1_000_000_000 + nanos` recovers the input and
`nanos` is a proper remainder below `1_000_000_000`. -/
theorem time_to_tuple_exact_c10 (n : Nat) :
    (timeToTuple n).1 * 1000000000 + (timeToTuple n).2 = n ∧
    (timeToTuple n).2 < 1000000000 := by
  constructor <;> (simp only [timeToTuple]; omega)

/-- C2 counterexample: with a configured server url, a non-empty
buffer, `shutdown_requested = false` and the send failing with a
plain (non-`RuntimeError`) exception — which is exactly how transport
errors and non-success HTTP statuses surface from `_send_spans` —
`flush` logs the error and returns normally: the failure is not
propagated to the caller. -/
theorem flush_failure_not_propagated_c2 :
    (flush "http://host" false SendOutcome.otherException
        ⟨[spanA], {spanKey spanA}⟩).2 = FlushResult.failedSwallowed ∧
    (flush "http://host" false SendOutcome.otherException
        ⟨[spanA], {spanKey spanA}⟩).2 ≠ FlushResult.failedRaised := by
  constructor <;> decide

/-- C2 (amended): on every failed delivery attempt the drained spans
are restored to the front of the buffer in their original order and
the key set is rebuilt to the buffer's keys; the failure is
propagated to the caller of `flush` when it is a `RuntimeError`
(including the scheduler-shutdown case) or when shutdown has been
requested, but a plain exception during normal operation is logged and
swallowed. -/
theorem flush_failure_restores_c2 (serverUrl : String) (sr : Bool)
    (send : SendOutcome) (st : ExporterState)
    (hurl : serverUrl ≠ "") (hne : st.buffer ≠ [])
    (hfail : send ≠ SendOutcome.success) :
    ((flush serverUrl sr send st).1.buffer = st.buffer) ∧
    ((flush serverUrl sr send st).1.bufferSpanKeys =
      bufKeys (flush serverUrl sr send st).1) ∧
    ((flush serverUrl sr send st).2 =
      if send = SendOutcome.otherException ∧ sr = false
      then FlushResult.failedSwallowed else FlushResult.failedRaised) := by
  have hempty : st.buffer.isEmpty = false := by
    cases hb : st.buffer with
    | nil => exact absurd hb hne
    | cons x xs => rfl
  cases send with
  | success => exact absurd rfl hfail
  | runtimeShutdownError =>
      refine ⟨?_, ?_, ?_⟩ <;>
        simp [flush, extractAndRemoveSpansFromBuffer, hempty, hurl,
          prependSpansToBuffer, bufKeys]
  | runtimeOtherError =>
      refine ⟨?_, ?_, ?_⟩ <;>
        simp [flush, extractAndRemoveSpansFromBuffer, hempty, hurl,
          prependSpansToBuffer, bufKeys]
  | otherException =>
      refine ⟨?_, ?_, ?_⟩ <;>
        cases sr <;>
          simp [flush, extractAndRemoveSpansFromBuffer, hempty, hurl,
            prependSpansToBuffer, bufKeys]

/-- C2 witness: a concrete failed cycle (a `RuntimeError` outside
shutdown) restores the single drained span. -/
theorem flush_failure_restores_c2_witness :
    ("http://host" ≠ "") ∧
    (([spanA] : List SpanRecord) ≠ []) ∧
    (SendOutcome.runtimeOtherError ≠ SendOutcome.success) ∧
    (flush "http://host" false SendOutcome.runtimeOtherError
      ⟨[spanA], {spanKey spanA}⟩).1.buffer = [spanA] :=
  ⟨by decide, by decide, by decide,
    (flush_failure_restores_c2 "http://host" false
      SendOutcome.runtimeOtherError ⟨[spanA], {spanKey spanA}⟩
      (by decide) (by decide) (by decide)).1⟩

/-- C3: `_split_into_batches` concatenates back to exactly the input
list, every produced batch is within the byte ceiling unless it is a
single oversized span, and empty input yields no batches. -/
theorem split_batches_ceiling_c3 (sz : SpanRecord → Nat) (maxB : Nat)
    (spans : List SpanRecord) :
    (splitIntoBatches sz maxB spans).flatten = spans ∧
    (∀ b ∈ splitIntoBatches sz maxB spans, goodBatch sz maxB b) ∧
    splitIntoBatches sz maxB ([] : List SpanRecord) = [] := by
  refine ⟨?_, ?_, rfl⟩
  · unfold splitIntoBatches
    by_cases h : spans = []
    · simp [h]
    · rw [if_neg h, splitGo_flatten]
      simp
  · unfold splitIntoBatches
    by_cases h : spans = []
    · simp [h]
    · rw [if_neg h]
      exact splitGo_good sz maxB spans [] [] 0 (by simp) rfl
        (Nat.zero_le _)

/-- Serialized-size function used to instantiate the partitioning
theorems on concrete spans: the length of the payload field stands in
for `len(json.dumps(span).encode('utf-8'))`. -/
def szPayload (sp : SpanRecord) : Nat :=
  sp.payload.length

/-- C3 witness: three concrete spans of size 8 with a ceiling of 16
split into `[[spanA, spanB], [spanC]]`; the first batch is within the
ceiling. -/
theorem split_batches_ceiling_c3_witness :
    (splitIntoBatches szPayload 16 [spanA, spanB, spanC]).flatten =
        [spanA, spanB, spanC] ∧
    goodBatch szPayload 16 [spanA, spanB] :=
  ⟨(split_batches_ceiling_c3 szPayload 16 [spanA, spanB, spanC]).1,
    (split_batches_ceiling_c3 szPayload 16 [spanA, spanB, spanC]).2.1
      [spanA, spanB] (by decide)⟩

/-- C7: a flush cycle with a non-empty buffer and no configured server
url ends with the warning-level `skippedNoUrl` outcome (not a
failure), its behaviour does not depend on any send outcome (no
network send happens), the buffer ends empty, and none of the drained
spans' keys remain tracked. -/
theorem flush_no_url_discard_c7 (sr : Bool) (send1 send2 : SendOutcome)
    (st : ExporterState) (hne : st.buffer ≠ []) :
    ((flush "" sr send1 st).2 = FlushResult.skippedNoUrl) ∧
    (flush "" sr send1 st = flush "" sr send2 st) ∧
    ((flush "" sr send1 st).1.buffer = []) ∧
    (∀ sp ∈ st.buffer,
      spanKey sp ∉ (flush "" sr send1 st).1.bufferSpanKeys) := by
  have hempty : st.buffer.isEmpty = false := by
    cases hb : st.buffer with
    | nil => exact absurd hb hne
    | cons x xs => rfl
  refine ⟨?_, ?_, ?_, ?_⟩
  · simp [flush, extractAndRemoveSpansFromBuffer, hempty]
  · simp [flush, extractAndRemoveSpansFromBuffer, hempty]
  · simp [flush, extractAndRemoveSpansFromBuffer, hempty,
      removeSpanKeysFromTracking]
  · intro sp hsp hmem
    simp only [flush, extractAndRemoveSpansFromBuffer, hempty,
      Bool.false_eq_true, if_false, if_true, removeSpanKeysFromTracking]
      at hmem
    rw [mem_foldl_erase] at hmem
    exact hmem.2 sp hsp rfl

/-- C7 witness: three concrete buffered spans flushed with no server
url: the cycle is a warning, the buffer ends empty and the keys are
gone. -/
theorem flush_no_url_discard_c7_witness :
    (([spanA, spanB, spanC] : List SpanRecord) ≠ []) ∧
    (flush "" false SendOutcome.success
      ⟨[spanA, spanB, spanC],
        {spanKey spanA, spanKey spanB, spanKey spanC}⟩).2 =
      FlushResult.skippedNoUrl ∧
    (flush "" false SendOutcome.success
      ⟨[spanA, spanB, spanC],
        {spanKey spanA, spanKey spanB, spanKey spanC}⟩).1.buffer = [] ∧
    spanKey spanA ∉ (flush "" false SendOutcome.success
      ⟨[spanA, spanB, spanC],
        {spanKey spanA, spanKey spanB, spanKey spanC}⟩).1.bufferSpanKeys := by
  have h := flush_no_url_discard_c7 false SendOutcome.success
    SendOutcome.success
    ⟨[spanA, spanB, spanC], {spanKey spanA, spanKey spanB, spanKey spanC}⟩
    (by decide)
  exact ⟨by decide, h.1, h.2.2.1, h.2.2.2 spanA (by decide)⟩

/-- C8: a span whose own serialized size exceeds the byte ceiling is
placed alone in its own batch rather than dropped: partitioning the
one-element list returns exactly one batch holding exactly that
span. -/
theorem oversized_span_alone_c8 (sz : SpanRecord → Nat) (maxB : Nat)
    (sp : SpanRecord) (h : maxB < sz sp) :
    splitIntoBatches sz maxB [sp] = [[sp]] := by
  unfold splitIntoBatches
  rw [if_neg (by simp)]
  simp [splitGo, h]

/-- C8 witness: a concrete span of size 8 against a ceiling of 3. -/
theorem oversized_span_alone_c8_witness :
    (3 < szPayload spanA) ∧
    splitIntoBatches szPayload 3 [spanA] = [[spanA]] :=
  ⟨by decide, oversized_span_alone_c8 szPayload 3 spanA (by decide)⟩

/-- C9 counterexample: a constructor-supplied `server_url` keeps its
trailing slash — the `.rstrip("/")` in the `server_url` property is
applied only to the environment-variable fallback, so the claim that
the effective url is slash-stripped for both sources fails. -/
theorem server_url_ctor_slash_kept_c9 :
    serverUrlEffective (some "http://host/") none ≠
      rstripSlashes "http://host/" := by
  decide

/-- C9 (amended): the trailing slashes are stripped from the
environment-variable value, while a non-empty constructor-supplied
`server_url` is used verbatim. -/
theorem server_url_strip_c9 (u : String) (env : Option String)
    (hu : u ≠ "") :
    serverUrlEffective none (some u) = rstripSlashes u ∧
    serverUrlEffective (some u) env = u := by
  constructor
  · rfl
  · simp [serverUrlEffective, pyOrStr, hu]

/-- C9 witness: a concrete url with a trailing slash, via the
environment (stripped) and via the constructor (kept). -/
theorem server_url_strip_c9_witness :
    ("http://host/" ≠ "") ∧
    serverUrlEffective none (some "http://host/") =
      rstripSlashes "http://host/" ∧
    serverUrlEffective (some "http://host/") none = "http://host/" :=
  ⟨by decide,
    (server_url_strip_c9 "http://host/" none (by decide)).1,
    (server_url_strip_c9 "http://host/" none (by decide)).2⟩
